import Mathlib

/-!
Verification of the openPMD-api deferred-write core and the parallel
benchmark example.  Part 1 embeds the benchmark program
`examples/8a_benchmark_write1D2D_parallel.cpp` (pure partitioning logic)
directly from the C++ source.  Part 2 models the deferred-write engine
(attribute store, dirty tracking, flush scheduler, iteration close state
machine) whose implementation files are not part of this tree; only the
`Iteration.hpp` declarations (notably `Iteration::CloseStatus`,
`Iteration::close`, `Iteration::dirtyRecursive`) and the design
specification describe it, so those definitions are modelled from the spec.
-/

namespace OpenPMD

namespace Bench

/-- State of the benchmark input parameters, from class `TestInput` in
`examples/8a_benchmark_write1D2D_parallel.cpp`.  Machine integers
(`unsigned int`, `unsigned long`, MPI ranks) are modelled as `Nat`; the
benchmark never exercises wrap-around. -/
structure TestInput where
  m_MPISize : Nat
  m_MPIRank : Nat
  m_Bulk : Nat
  m_Seg : Nat
  m_Backend : String
  m_Unbalance : Bool
deriving DecidableEq, Repr

/-- `auxiliary::getEnvString(name, default)`: the environment variable's
value when set, the default otherwise.  The environment is passed
explicitly as an `Option String`. -/
def getEnvString (env : Option String) (defaultVal : String) : String :=
  env.getD defaultVal

/-- `TestInput::GetSeg`: number of partitions along the long dimension.
Returns 1 when the backend is ".h5" and `OPENPMD_HDF5_INDEPENDENT` is set
to a value other than "ON"; otherwise falls through to `m_Seg`. -/
def GetSeg (t : TestInput) (envIndependent : Option String) : Nat :=
  if t.m_Backend = ".h5" then
    if getEnvString envIndependent "ON" ≠ "ON" then 1
    else t.m_Seg
  else t.m_Seg

/-- `TestInput::GetRankCountOffset`: per-rank offset and count, with the
unbalanced redistribution on steps where `step % 3 == 1` (C++ truncated
remainder, hence `Int.tmod`).  Returns `(offset, count)`. -/
def GetRankCountOffset (t : TestInput) (step : Int) : Nat × Nat :=
  let count := t.m_Bulk
  let offset := t.m_Bulk * t.m_MPIRank
  if ¬ t.m_Unbalance then (offset, count)
  else if t.m_MPISize < 2 then (offset, count)
  else if Int.tmod step 3 ≠ 1 then (offset, count)
  else
    let count := if t.m_MPIRank % 10 = 0 then 0 else count
    if t.m_MPIRank % 10 = 1 then (offset - t.m_Bulk, count + t.m_Bulk)
    else (offset, count)

/-- Size of the `i`-th block in `TestInput::setBlockDistributionInRank`:
`rankCount / nBlocks`, except that the last block absorbs the remainder
when `rankCount % nBlocks != 0`. -/
def blockSizeAt (rankCount nBlocks i : Nat) : Nat :=
  if rankCount % nBlocks ≠ 0 ∧ i = nBlocks - 1 then
    rankCount - (rankCount / nBlocks) * (nBlocks - 1)
  else rankCount / nBlocks

/-- The loop of `TestInput::setBlockDistributionInRank`: starting at block
index `i` with accumulated `counter`, emit `fuel` blocks of the form
`(rankOffset + counter, blockSize)`. -/
def buildBlocks (rankOffset rankCount nBlocks : Nat) :
    Nat → Nat → Nat → List (Nat × Nat)
  | 0, _, _ => []
  | Nat.succ fuel, i, counter =>
    (rankOffset + counter, blockSizeAt rankCount nBlocks i) ::
      buildBlocks rankOffset rankCount nBlocks fuel (i + 1)
        (counter + blockSizeAt rankCount nBlocks i)

/-- `TestInput::setBlockDistributionInRank`: computes the new
`m_InRankDistribution`.  When the rank count is zero the function returns
early, leaving the old distribution `old` in place. -/
def setBlockDistributionInRank (t : TestInput) (envIndependent : Option String)
    (old : List (Nat × Nat)) (step : Int) : List (Nat × Nat) :=
  let rankOffset := (GetRankCountOffset t step).1
  let rankCount := (GetRankCountOffset t step).2
  if rankCount = 0 then old
  else
    let nBlocks0 := GetSeg t envIndependent
    let nBlocks := if rankCount / nBlocks0 ≤ 1 then 1 else nBlocks0
    buildBlocks rankOffset rankCount nBlocks nBlocks 0 0

/-- A concrete benchmark input (ADIOS2 backend, three segments) used to
instantiate the theorems below. -/
def sampleInput : TestInput :=
  { m_MPISize := 2
    m_MPIRank := 0
    m_Bulk := 10
    m_Seg := 3
    m_Backend := ".bp"
    m_Unbalance := false }

/-- A concrete benchmark input with the HDF5 backend. -/
def sampleInputH5 : TestInput :=
  { m_MPISize := 2
    m_MPIRank := 0
    m_Bulk := 10
    m_Seg := 3
    m_Backend := ".h5"
    m_Unbalance := false }

end Bench

namespace Core

/-- A typed attribute value (the spec requires only "named, typed value";
the concrete encoding rules are out of scope). -/
inductive AttrValue
  | vInt (i : Int)
  | vStr (s : String)
  | vBool (b : Bool)
deriving DecidableEq, Repr

/-- `Iteration::CloseStatus` from `Iteration.hpp`: whether an iteration has
been closed yet, and how far the close has propagated. -/
inductive CloseStatus
  | Open
  | ClosedInFrontend
  | ClosedInBackend
  | ClosedTemporarily
deriving DecidableEq, Repr

/-- One segment of a hierarchy path: a named child or an iteration index. -/
inductive PathSeg
  | name (s : String)
  | index (n : Nat)
deriving DecidableEq, Repr

/-- Position of a hierarchy node, from the series root downwards. -/
abbrev HPath := List PathSeg

/-- Modelled from the spec: the error kinds of §7 (`NotFound`,
`InvalidState`, `BackendError`, `TypeMismatch`). -/
inductive ErrorKind
  | NotFound
  | InvalidState
  | BackendError
  | TypeMismatch
deriving DecidableEq, Repr

/-- Modelled from the spec: the task vocabulary of the Task Queue (§3):
an immutable record of one pending backend operation with its target
hierarchy node. -/
inductive Task
  | createEntity (target : HPath)
  | writeAttribute (target : HPath) (attrName : String) (v : AttrValue)
  | createDataset (target : HPath) (extent : List Nat)
  | writeChunk (target : HPath) (offset extent : List Nat)
  | advanceStep (target : HPath)
  | closeEntity (target : HPath)
deriving DecidableEq, Repr

/-- The hierarchy node a task addresses. -/
def Task.target : Task → HPath
  | .createEntity p => p
  | .writeAttribute p _ _ => p
  | .createDataset p _ => p
  | .writeChunk p _ _ => p
  | .advanceStep p => p
  | .closeEntity p => p

/-- Is this task a create-entity task? -/
def Task.isCreateEntity : Task → Bool
  | .createEntity _ => true
  | _ => false

/-- Is this task a create-dataset task? -/
def Task.isCreateDataset : Task → Bool
  | .createDataset _ _ => true
  | _ => false

/-- Is this task a write-attribute or write-chunk task (a "use" of the
target node, in the create-before-use sense)? -/
def Task.isUse : Task → Bool
  | .writeAttribute _ _ _ => true
  | .writeChunk _ _ _ => true
  | _ => false

/-- Is this task a write-chunk task? -/
def Task.isChunk : Task → Bool
  | .writeChunk _ _ _ => true
  | _ => false

/-- First value stored under key `k` in an association list (the keyed
child / attribute collections of the hierarchy). -/
def lookupKey {α β : Type} [DecidableEq α] (k : α) : List (α × β) → Option β
  | [] => none
  | q :: rest => if q.1 = k then some q.2 else lookupKey k rest

/-- Update the first entry with key `k` by `f`, leaving the rest alone. -/
def updateKey {α β : Type} [DecidableEq α] (k : α) (f : β → β) :
    List (α × β) → List (α × β)
  | [] => []
  | q :: rest =>
    if q.1 = k then (q.1, f q.2) :: rest else q :: updateKey k f rest

/-- Modelled from the spec: the state every entity kind shares (§3
Hierarchy Node + Attribute Store): the attribute mapping, the names with
unflushed writes, the entity's dirty flag and its
written-to-backend flag.  The implementation files (`Attributable`,
`Writable`) are not in this tree. -/
structure NodeCore where
  attrs : List (String × AttrValue)
  dirtyAttrs : List String
  dirty : Bool
  written : Bool
deriving DecidableEq, Repr

/-- Modelled from the spec: `setAttribute(name, value)` stores/overwrites
the value and marks the entity dirty (§4.1). -/
def NodeCore.setAttribute (c : NodeCore) (n : String) (v : AttrValue) :
    NodeCore :=
  { c with
    attrs := (n, v) :: c.attrs.filter (fun q => q.1 ≠ n)
    dirtyAttrs := if n ∈ c.dirtyAttrs then c.dirtyAttrs else n :: c.dirtyAttrs
    dirty := true }

/-- Modelled from the spec: `getAttribute(name)` before any backend read:
the stored value, absent means `NotFound` (§4.1). -/
def NodeCore.getAttribute (c : NodeCore) (n : String) : Option AttrValue :=
  lookupKey n c.attrs

/-- Create-entity task for a node not yet created in the backend
(create-before-use, §4.2 step 2). -/
def NodeCore.createTasks (p : HPath) (c : NodeCore) : List Task :=
  if c.written then [] else [Task.createEntity p]

/-- Write-attribute tasks for the entity's dirty attributes
(§4.2 step 3). -/
def NodeCore.attrTasks (p : HPath) (c : NodeCore) : List Task :=
  c.dirtyAttrs.filterMap fun n =>
    (lookupKey n c.attrs).map fun v => Task.writeAttribute p n v

/-- Clearing after a successful flush: dirty markers dropped, the node now
exists in the backend (§4.2 step 7). -/
def NodeCore.clearDirty (c : NodeCore) : NodeCore :=
  { c with dirtyAttrs := [], dirty := false, written := true }

/-- A pending chunk write: offset and extent (the buffer contents are out
of scope). -/
structure Chunk where
  offset : List Nat
  extent : List Nat
deriving DecidableEq, Repr

/-- Modelled from the spec: a RecordComponent (§3): common node state, a
declared dataset extent (once `resetDataset` ran), whether the dataset
exists in the backend, constness, and the queue of pending chunk
writes. -/
structure RecordComponent where
  core : NodeCore
  dataset : Option (List Nat)
  datasetCreated : Bool
  isConstant : Bool
  pendingChunks : List Chunk
deriving DecidableEq, Repr

/-- Dirtiness of a record component (leaf case of
`Iteration::dirtyRecursive`). -/
def RecordComponent.dirtyRecursive (rc : RecordComponent) : Bool :=
  rc.core.dirty

/-- Flush-scheduler emission for a record component (§4.2 steps 2-5):
create-entity if needed, then dirty attributes, then create-dataset for a
declared-but-uncreated dataset, then the pending chunks in submission
order.  A clean component emits nothing (§4.2 step 1). -/
def RecordComponent.flushTasks (p : HPath) (rc : RecordComponent) :
    List Task :=
  if rc.dirtyRecursive then
    rc.core.createTasks p ++ rc.core.attrTasks p ++
    (match rc.dataset with
     | some ext => if rc.datasetCreated then [] else [Task.createDataset p ext]
     | none => []) ++
    rc.pendingChunks.map (fun c => Task.writeChunk p c.offset c.extent)
  else []

/-- Clearing a record component after a successful flush of its subtree. -/
def RecordComponent.clearAfterFlush (rc : RecordComponent) : RecordComponent :=
  if rc.dirtyRecursive then
    { rc with
      core := rc.core.clearDirty
      datasetCreated := rc.dataset.isSome || rc.datasetCreated
      pendingChunks := [] }
  else rc

/-- Modelled from the spec: a Mesh / ParticleSpecies: common node state
plus a keyed collection of record components (§3). -/
structure MeshLike where
  core : NodeCore
  components : List (String × RecordComponent)
deriving DecidableEq, Repr

/-- Dirtiness of a mesh subtree: the node itself or any component. -/
def MeshLike.dirtyRecursive (m : MeshLike) : Bool :=
  m.core.dirty || m.components.any fun q => q.2.dirtyRecursive

/-- Flush-scheduler emission for a mesh subtree: its own create/attribute
tasks, then each component block in collection order. -/
def MeshLike.flushTasks (p : HPath) (m : MeshLike) : List Task :=
  if m.dirtyRecursive then
    m.core.createTasks p ++ m.core.attrTasks p ++
    (m.components.map fun q => q.2.flushTasks (p ++ [PathSeg.name q.1])).flatten
  else []

/-- Clearing a mesh subtree after a successful flush. -/
def MeshLike.clearAfterFlush (m : MeshLike) : MeshLike :=
  if m.dirtyRecursive then
    { core := m.core.clearDirty
      components := m.components.map fun q => (q.1, q.2.clearAfterFlush) }
  else m

/-- Modelled from the spec: an Iteration (§3, declarations in
`Iteration.hpp`): common node state, the `CloseStatus`, and the keyed
meshes. -/
structure IterationState where
  core : NodeCore
  closeStatus : CloseStatus
  meshes : List (String × MeshLike)
deriving DecidableEq, Repr

/-- `Iteration::dirtyRecursive` (declared in `Iteration.hpp`): whether the
iteration or any entity below it carries unflushed mutations. -/
def IterationState.dirtyRecursive (it : IterationState) : Bool :=
  it.core.dirty || it.meshes.any fun q => q.2.dirtyRecursive

/-- Flush-scheduler emission for an iteration: its own create/attribute
tasks, the mesh blocks, then the pending close-entity task for a
frontend-closed iteration (or the lighter step advance for a temporarily
closed one, §4.3). -/
def IterationState.flushTasks (p : HPath) (it : IterationState) : List Task :=
  if it.dirtyRecursive then
    it.core.createTasks p ++ it.core.attrTasks p ++
    (it.meshes.map fun q => q.2.flushTasks (p ++ [PathSeg.name q.1])).flatten ++
    (match it.closeStatus with
     | CloseStatus.ClosedInFrontend => [Task.closeEntity p]
     | CloseStatus.ClosedTemporarily => [Task.advanceStep p]
     | _ => [])
  else []

/-- Clearing an iteration after a successful flush: dirty markers dropped
and a frontend-close is now propagated (`ClosedInFrontend` advances to
`ClosedInBackend`, §4.3). -/
def IterationState.clearAfterFlush (it : IterationState) : IterationState :=
  if it.dirtyRecursive then
    { core := it.core.clearDirty
      closeStatus :=
        if it.closeStatus = CloseStatus.ClosedInFrontend then
          CloseStatus.ClosedInBackend
        else it.closeStatus
      meshes := it.meshes.map fun q => (q.1, q.2.clearAfterFlush) }
  else it

/-- Modelled from the spec: the layout choice fixed at Series construction
(§6): file-based (one physical file per iteration) vs group-based (one
shared file, iterations as groups). -/
inductive IterationEncoding
  | fileBased
  | groupBased
deriving DecidableEq, Repr

/-- Modelled from the spec: a Series (§3): root node state, the layout
encoding chosen at construction, the keyed iterations, and whether the
attached backend currently executes batches successfully (the Backend
Protocol collaborator, abstracted to its success/failure answer). -/
structure SeriesState where
  core : NodeCore
  encoding : IterationEncoding
  iterations : List (Nat × IterationState)
  backendHealthy : Bool
deriving DecidableEq, Repr

/-- Dirtiness of the whole hierarchy. -/
def SeriesState.dirtyRecursive (s : SeriesState) : Bool :=
  s.core.dirty || s.iterations.any fun q => q.2.dirtyRecursive

/-- The full task batch one flush cycle emits (§4.2 steps 1-6): dirty
subtree, depth first, root to leaves, siblings in collection order. -/
def SeriesState.flushTasks (s : SeriesState) : List Task :=
  if s.dirtyRecursive then
    s.core.createTasks [] ++ s.core.attrTasks [] ++
    (s.iterations.map fun q => q.2.flushTasks [PathSeg.index q.1]).flatten
  else []

/-- The in-memory state after a successful flush batch (§4.2 step 7). -/
def SeriesState.clearAfterFlush (s : SeriesState) : SeriesState :=
  if s.dirtyRecursive then
    { s with
      core := s.core.clearDirty
      iterations := s.iterations.map fun q => (q.1, q.2.clearAfterFlush) }
  else s

/-- Result of one flush cycle: the new state, the task batch handed to the
backend, and the surfaced error if the batch failed. -/
structure FlushResult where
  state : SeriesState
  tasks : List Task
  error : Option ErrorKind
deriving DecidableEq, Repr

/-- Modelled from the spec: one flush cycle (§4.2 steps 6-7): with no
dirty node the flush is a no-op emitting zero tasks; otherwise the batch
is handed to the backend; on success dirty flags are cleared and closes
propagated, on failure the in-memory state is left untouched and the
error surfaced. -/
def SeriesState.flush (s : SeriesState) : FlushResult :=
  let ts := s.flushTasks
  if ts.isEmpty then { state := s, tasks := [], error := none }
  else if s.backendHealthy then
    { state := s.clearAfterFlush, tasks := ts, error := none }
  else { state := s, tasks := ts, error := some ErrorKind.BackendError }

/-- Is a data- or attribute-mutating call legal for this close state
(§4.3: `ClosedTemporarily` behaves like `Open` for legality checks)? -/
def mutationAllowed : CloseStatus → Bool
  | CloseStatus.Open => true
  | CloseStatus.ClosedTemporarily => true
  | _ => false

/-- Close state of the iteration at index `idx`, if present. -/
def SeriesState.statusOf (s : SeriesState) (idx : Nat) : Option CloseStatus :=
  (lookupKey idx s.iterations).map fun it => it.closeStatus

/-- Mark the iteration at `idx` closed in the frontend: the close state
becomes `ClosedInFrontend` and the pending close task makes the iteration
dirty for the next flush (§4.3). -/
def SeriesState.markClosedInFrontend (s : SeriesState) (idx : Nat) :
    SeriesState :=
  { s with
    iterations :=
      updateKey idx (fun it =>
        { it with
          closeStatus := CloseStatus.ClosedInFrontend
          core := { it.core with dirty := true } }) s.iterations }

/-- Modelled from the spec: the user-facing operations of the deferred
write engine that the claims quantify over. -/
inductive Op
  | setSeriesAttribute (n : String) (v : AttrValue)
  | setIterationAttribute (idx : Nat) (n : String) (v : AttrValue)
  | setMeshAttribute (idx : Nat) (mesh n : String) (v : AttrValue)
  | storeChunk (idx : Nat) (mesh comp : String) (c : Chunk)
  | close (idx : Nat) (doFlush : Bool)
  | flushSeries
deriving DecidableEq, Repr

/-- Does the operation perform a flush cycle (`flush()` itself, or
`close(flush=true)` which forces one, §4.3)? -/
def Op.triggersFlush : Op → Bool
  | Op.flushSeries => true
  | Op.close _ doFlush => doFlush
  | _ => false

/-- Is the operation a data- or attribute-mutating call on iteration
`idx` or one of its meshes? -/
def Op.mutatesIteration (idx : Nat) : Op → Bool
  | Op.setIterationAttribute j _ _ => j = idx
  | Op.setMeshAttribute j _ _ _ => j = idx
  | Op.storeChunk j _ _ _ => j = idx
  | _ => false

/-- Outcome of applying one operation: new state, tasks a triggered flush
handed to the backend, surfaced error. -/
structure OpResult where
  state : SeriesState
  tasks : List Task
  error : Option ErrorKind
deriving DecidableEq, Repr

/-- Modelled from the spec: the semantics of the user-facing operations.
Attribute/chunk mutations are gated by the close state (§4.3) and only
touch in-memory state; `close` transitions `Open`/`ClosedTemporarily` to
`ClosedInFrontend`, forcing a flush of the pre-close state first when
`flush=true` (§4.3); `flushSeries` runs one flush cycle (§4.2). -/
def applyOp (s : SeriesState) : Op → OpResult
  | Op.setSeriesAttribute n v =>
    { state := { s with core := s.core.setAttribute n v }
      tasks := [], error := none }
  | Op.setIterationAttribute idx n v =>
    match lookupKey idx s.iterations with
    | none => { state := s, tasks := [], error := some ErrorKind.NotFound }
    | some it =>
      if mutationAllowed it.closeStatus then
        { state :=
            { s with
              iterations :=
                updateKey idx (fun it =>
                  { it with core := it.core.setAttribute n v }) s.iterations }
          tasks := [], error := none }
      else { state := s, tasks := [], error := some ErrorKind.InvalidState }
  | Op.setMeshAttribute idx mesh n v =>
    match lookupKey idx s.iterations with
    | none => { state := s, tasks := [], error := some ErrorKind.NotFound }
    | some it =>
      if mutationAllowed it.closeStatus then
        match lookupKey mesh it.meshes with
        | none => { state := s, tasks := [], error := some ErrorKind.NotFound }
        | some _ =>
          { state :=
              { s with
                iterations :=
                  updateKey idx (fun it =>
                    { it with
                      meshes :=
                        updateKey mesh (fun m =>
                          { m with core := m.core.setAttribute n v })
                          it.meshes }) s.iterations }
            tasks := [], error := none }
      else { state := s, tasks := [], error := some ErrorKind.InvalidState }
  | Op.storeChunk idx mesh comp c =>
    match lookupKey idx s.iterations with
    | none => { state := s, tasks := [], error := some ErrorKind.NotFound }
    | some it =>
      if mutationAllowed it.closeStatus then
        match lookupKey mesh it.meshes with
        | none => { state := s, tasks := [], error := some ErrorKind.NotFound }
        | some m =>
          match lookupKey comp m.components with
          | none =>
            { state := s, tasks := [], error := some ErrorKind.NotFound }
          | some rc =>
            if rc.isConstant then
              { state := s, tasks := [], error := some ErrorKind.InvalidState }
            else
              match rc.dataset with
              | none =>
                { state := s, tasks := []
                  error := some ErrorKind.InvalidState }
              | some _ =>
                { state :=
                    { s with
                      iterations :=
                        updateKey idx (fun it =>
                          { it with
                            meshes :=
                              updateKey mesh (fun m =>
                                { m with
                                  components :=
                                    updateKey comp (fun rc =>
                                      { rc with
                                        core := { rc.core with dirty := true }
                                        pendingChunks :=
                                          rc.pendingChunks ++ [c] })
                                      m.components }) it.meshes }) s.iterations }
                  tasks := [], error := none }
      else { state := s, tasks := [], error := some ErrorKind.InvalidState }
  | Op.close idx doFlush =>
    match lookupKey idx s.iterations with
    | none => { state := s, tasks := [], error := some ErrorKind.NotFound }
    | some it =>
      if mutationAllowed it.closeStatus then
        let fr :=
          if doFlush then s.flush
          else { state := s, tasks := [], error := none }
        { state := fr.state.markClosedInFrontend idx
          tasks := fr.tasks, error := fr.error }
      else { state := s, tasks := [], error := some ErrorKind.InvalidState }
  | Op.flushSeries =>
    let fr := s.flush
    { state := fr.state, tasks := fr.tasks, error := fr.error }

/-- Modelled from the spec: a path template token: a literal piece or a
step-number placeholder such as the `%07T` of the benchmark's file-based
runs (§6 Naming pattern). -/
inductive PathToken
  | lit (s : String)
  | stepPlaceholder (pad : Nat)
deriving DecidableEq, Repr

/-- Is this token a step-number placeholder? -/
def PathToken.isPlaceholder : PathToken → Bool
  | PathToken.stepPlaceholder _ => true
  | _ => false

/-- Does the template contain a step-number placeholder? -/
def hasStepPlaceholder (tpl : List PathToken) : Bool :=
  tpl.any PathToken.isPlaceholder

/-- Modelled from the spec: Series construction (§3, §6): the layout
encoding is chosen from the path template once, at construction. -/
def mkSeries (tpl : List PathToken) (healthy : Bool) : SeriesState :=
  { core := { attrs := [], dirtyAttrs := [], dirty := false, written := false }
    encoding :=
      if hasStepPlaceholder tpl then IterationEncoding.fileBased
      else IterationEncoding.groupBased
    iterations := []
    backendHealthy := healthy }

/-- Modelled from the spec: the physical file an iteration's data lands in
(§6): its own file per iteration under file-based layout, the one shared
file under group-based layout. -/
inductive PhysicalFile
  | perIteration (step : Nat)
  | shared
deriving DecidableEq, Repr

/-- Physical file for iteration `step` under the series' layout. -/
def SeriesState.physicalFileOf (s : SeriesState) (step : Nat) : PhysicalFile :=
  match s.encoding with
  | IterationEncoding.fileBased => PhysicalFile.perIteration step
  | IterationEncoding.groupBased => PhysicalFile.shared

/-- Left-to-right scan: does every task targeting `p` that `isUseKind`
selects come after some task targeting `p` that `isCreateKind` selects?
`created` records whether a create for `p` was already seen. -/
def scanOk (isCreateKind isUseKind : Task → Bool) (p : HPath) :
    List Task → Bool → Bool
  | [], _ => true
  | t :: ts, created =>
    if t.target = p ∧ isUseKind t = true
        ∧ (created || (isCreateKind t && decide (t.target = p))) = false
      then false
      else scanOk isCreateKind isUseKind p ts
        (created || (isCreateKind t && decide (t.target = p)))

/-- Was a create-kind task for `p` emitted in this list? -/
def seenCreate (isCreateKind : Task → Bool) (p : HPath) (ts : List Task) :
    Bool :=
  ts.any fun t => isCreateKind t && decide (t.target = p)

/-- Keyed collections carry unique keys at every level of the hierarchy
(the invariant of the name→child mappings of §3). -/
def SeriesState.wellFormed (s : SeriesState) : Prop :=
  (s.iterations.map Prod.fst).Nodup ∧
  ∀ q ∈ s.iterations,
    (q.2.meshes.map Prod.fst).Nodup ∧
    ∀ r ∈ q.2.meshes, (r.2.components.map Prod.fst).Nodup

/-- A node state carrying one unflushed attribute, used to instantiate
the theorems below. -/
def sampleCore : NodeCore :=
  { attrs := [("unitSI", AttrValue.vInt 1)]
    dirtyAttrs := ["unitSI"]
    dirty := true
    written := false }

/-- A record component with a declared, not yet created dataset and two
pending chunks. -/
def sampleRC : RecordComponent :=
  { core := sampleCore
    dataset := some [100]
    datasetCreated := false
    isConstant := false
    pendingChunks := [{ offset := [0], extent := [40] },
                      { offset := [40], extent := [60] }] }

/-- A mesh holding the sample record component under "x". -/
def sampleMesh : MeshLike :=
  { core := sampleCore
    components := [("x", sampleRC)] }

/-- An open, dirty iteration holding the sample mesh under "E". -/
def sampleIteration : IterationState :=
  { core := sampleCore
    closeStatus := CloseStatus.Open
    meshes := [("E", sampleMesh)] }

/-- A series with one open iteration and a healthy backend. -/
def sampleSeries : SeriesState :=
  { core := sampleCore
    encoding := IterationEncoding.fileBased
    iterations := [(1, sampleIteration)]
    backendHealthy := true }

/-- The sample series with iteration 1 already closed in the backend. -/
def sampleSeriesClosed : SeriesState :=
  { sampleSeries with
    iterations :=
      [(1, { sampleIteration with
              closeStatus := CloseStatus.ClosedInBackend })] }

/-- The sample series attached to a failing backend. -/
def sampleSeriesUnhealthy : SeriesState :=
  { sampleSeries with backendHealthy := false }

end Core

/-! Theorems about the benchmark partitioning code. -/

theorem getSeg_pos (t : Bench.TestInput) (env : Option String)
    (h : 0 < t.m_Seg) : 0 < Bench.GetSeg t env := by
  unfold Bench.GetSeg
  split
  · split
    · exact Nat.one_pos
    · exact h
  · exact h

theorem buildBlocks_head (ro rc nB f i c : Nat) :
    (Bench.buildBlocks ro rc nB (f + 1) i c).head?
      = some (ro + c, Bench.blockSizeAt rc nB i) := rfl

theorem buildBlocks_chain (ro rc nB : Nat) (fuel : Nat) :
    ∀ i counter, List.Chain' (fun a b : Nat × Nat => b.1 = a.1 + a.2)
      (Bench.buildBlocks ro rc nB fuel i counter) := by
  induction fuel with
  | zero => intro i c; simp [Bench.buildBlocks]
  | succ f ih =>
    intro i c
    rw [Bench.buildBlocks]
    refine List.chain'_cons'.mpr ⟨?_, ih (i + 1) (c + Bench.blockSizeAt rc nB i)⟩
    intro y hy
    cases f with
    | zero => simp [Bench.buildBlocks] at hy
    | succ f' =>
      rw [buildBlocks_head] at hy
      simp only [Option.mem_def, Option.some.injEq] at hy
      subst hy
      simp [Nat.add_assoc]

theorem div_mul_pred_add (rc nB : Nat) (h : 0 < nB) :
    rc / nB * (nB - 1) + rc / nB = rc / nB * nB := by
  obtain ⟨m, rfl⟩ : ∃ m, nB = m + 1 := ⟨nB - 1, by omega⟩
  simp [Nat.mul_succ]

theorem buildBlocks_sum (ro rc nB : Nat) (fuel : Nat) :
    ∀ i c, 0 < fuel → i + fuel = nB →
      ((Bench.buildBlocks ro rc nB fuel i c).map Prod.snd).sum
        = rc - rc / nB * i := by
  induction fuel with
  | zero => intro i c h; omega
  | succ f ih =>
    intro i c _ hin
    cases f with
    | zero =>
      have hi : i = nB - 1 := by omega
      have hnB : 0 < nB := by omega
      subst hi
      simp only [Bench.buildBlocks, List.map_cons, List.map_nil, List.sum_cons,
        List.sum_nil, Nat.add_zero]
      unfold Bench.blockSizeAt
      by_cases hmod : rc % nB = 0
      · rw [if_neg (fun hc => hc.1 hmod)]
        have hq : rc / nB * (nB - 1) + rc / nB = rc := by
          rw [div_mul_pred_add rc nB hnB]
          exact Nat.div_mul_cancel (Nat.dvd_of_mod_eq_zero hmod)
        generalize hB : rc / nB * (nB - 1) = B at hq ⊢
        generalize hQ : rc / nB = q at hq ⊢
        omega
      · rw [if_pos ⟨hmod, rfl⟩]
    | succ f' =>
      have hne : ¬ (rc % nB ≠ 0 ∧ i = nB - 1) := by
        rintro ⟨-, h2⟩
        omega
      rw [show Bench.buildBlocks ro rc nB (f' + 1 + 1) i c
            = (ro + c, Bench.blockSizeAt rc nB i) ::
              Bench.buildBlocks ro rc nB (f' + 1) (i + 1)
                (c + Bench.blockSizeAt rc nB i) from rfl]
      simp only [List.map_cons, List.sum_cons]
      rw [ih (i + 1) (c + Bench.blockSizeAt rc nB i) (Nat.succ_pos f') (by omega)]
      unfold Bench.blockSizeAt
      rw [if_neg hne]
      have h1 : rc / nB * (i + 1) = rc / nB * i + rc / nB := by ring
      have h2 : rc / nB * (i + 1) ≤ rc := by
        calc rc / nB * (i + 1) ≤ rc / nB * nB :=
              Nat.mul_le_mul_left (rc / nB) (by omega)
        _ ≤ rc := Nat.div_mul_le_self rc nB
      generalize hA : rc / nB * (i + 1) = A at h1 h2 ⊢
      generalize hB : rc / nB * i = B at h1 ⊢
      generalize hQ : rc / nB = q at h1 ⊢
      omega

theorem blockSizeAt_pos (rc nB : Nat)
    (h : nB = 1 ∧ 0 < rc ∨ 2 ≤ rc / nB) (i : Nat) :
    0 < Bench.blockSizeAt rc nB i := by
  unfold Bench.blockSizeAt
  rcases h with ⟨h1, hrc⟩ | hq
  · subst h1
    simp only [Nat.mod_one, ne_eq, not_true_eq_false, false_and, if_false,
      Nat.div_one]
    exact hrc
  · have hnB : 0 < nB := by
      by_contra hc
      have h0 : nB = 0 := by omega
      subst h0
      simp [Nat.div_zero] at hq
    have hgen : rc / nB * (nB - 1) + rc / nB = rc / nB * nB :=
      div_mul_pred_add rc nB hnB
    have hle : rc / nB * nB ≤ rc := Nat.div_mul_le_self rc nB
    split
    · generalize hB : rc / nB * (nB - 1) = B at hgen ⊢
      generalize hC : rc / nB * nB = C at hgen hle
      generalize hQ : rc / nB = q at hgen hq
      omega
    · generalize hQ : rc / nB = q at hq ⊢
      omega

theorem buildBlocks_sizes_pos (ro rc nB : Nat)
    (hpos : ∀ i, 0 < Bench.blockSizeAt rc nB i) (fuel : Nat) :
    ∀ i c, ∀ b ∈ Bench.buildBlocks ro rc nB fuel i c, 0 < b.2 := by
  induction fuel with
  | zero => intro i c b hb; simp [Bench.buildBlocks] at hb
  | succ f ih =>
    intro i c b hb
    rw [Bench.buildBlocks] at hb
    rcases List.mem_cons.mp hb with h | h
    · subst h
      exact hpos i
    · exact ih (i + 1) (c + Bench.blockSizeAt rc nB i) b h

/-- C9: `TestInput::GetSeg` returns 1 exactly when the backend is ".h5"
and `OPENPMD_HDF5_INDEPENDENT` is set to something other than "ON"; in
every other case (other backend, variable unset, or set to "ON") it
returns `m_Seg` unchanged. -/
theorem getSeg_spec (t : Bench.TestInput) (env : Option String) :
    (t.m_Backend = ".h5" → ∀ v, env = some v → v ≠ "ON" →
      Bench.GetSeg t env = 1)
    ∧ (t.m_Backend ≠ ".h5" ∨ env = none ∨ env = some "ON" →
      Bench.GetSeg t env = t.m_Seg) := by
  constructor
  · intro hb v hv hne
    subst hv
    simp [Bench.GetSeg, Bench.getEnvString, hb, hne]
  · intro h
    rcases h with h | h | h
    · simp [Bench.GetSeg, h]
    · subst h
      simp [Bench.GetSeg, Bench.getEnvString]
    · subst h
      simp [Bench.GetSeg, Bench.getEnvString]

/-- Witness for C9: on the concrete HDF5 input with the variable set to
"OFF" the theorem yields 1, and with it unset it yields `m_Seg` = 3. -/
theorem getSeg_spec_witness :
    Bench.GetSeg Bench.sampleInputH5 (some "OFF") = 1
    ∧ Bench.GetSeg Bench.sampleInputH5 none = 3 := by
  constructor
  · exact (getSeg_spec Bench.sampleInputH5 (some "OFF")).1 rfl "OFF" rfl
      (by decide)
  · exact (getSeg_spec Bench.sampleInputH5 none).2 (Or.inr (Or.inl rfl))

/-- C10: after `TestInput::setBlockDistributionInRank(step)` with a
positive rank count (and a positive segment setting), the distribution is
a contiguous partition of the rank's range: the first block starts at the
rank offset, each block starts where the previous one ends, all block
sizes are positive, and the sizes sum to the rank count returned by
`GetRankCountOffset`. -/
theorem setBlockDistributionInRank_partition (t : Bench.TestInput)
    (env : Option String) (old : List (Nat × Nat)) (step : Int)
    (hseg : 0 < t.m_Seg)
    (hcount : 0 < (Bench.GetRankCountOffset t step).2) :
    ((Bench.setBlockDistributionInRank t env old step).head?.map Prod.fst
        = some (Bench.GetRankCountOffset t step).1)
    ∧ List.Chain' (fun a b : Nat × Nat => b.1 = a.1 + a.2)
        (Bench.setBlockDistributionInRank t env old step)
    ∧ (∀ b ∈ Bench.setBlockDistributionInRank t env old step, 0 < b.2)
    ∧ ((Bench.setBlockDistributionInRank t env old step).map Prod.snd).sum
        = (Bench.GetRankCountOffset t step).2 := by
  unfold Bench.setBlockDistributionInRank
  have hne : ¬ (Bench.GetRankCountOffset t step).2 = 0 := by omega
  simp only [if_neg hne]
  set rc := (Bench.GetRankCountOffset t step).2 with hrc
  set ro := (Bench.GetRankCountOffset t step).1 with hro
  set nB0 := Bench.GetSeg t env with hnB0
  set nB := if rc / nB0 ≤ 1 then 1 else nB0 with hnB
  have hnB0pos : 0 < nB0 := getSeg_pos t env hseg
  have hnBpos : 0 < nB := by
    rw [hnB]
    split
    · exact Nat.one_pos
    · exact hnB0pos
  have hsizes : nB = 1 ∧ 0 < rc ∨ 2 ≤ rc / nB := by
    rw [hnB]
    split
    · exact Or.inl ⟨rfl, hcount⟩
    · exact Or.inr (by omega)
  obtain ⟨m, hm⟩ : ∃ m, nB = m + 1 := ⟨nB - 1, by omega⟩
  refine ⟨?_, buildBlocks_chain ro rc nB nB 0 0,
    buildBlocks_sizes_pos ro rc nB (blockSizeAt_pos rc nB hsizes) nB 0 0,
    ?_⟩
  · conv_lhs => rw [hm]
    rw [buildBlocks_head]
    simp
  · rw [buildBlocks_sum ro rc nB nB 0 0 hnBpos (Nat.zero_add nB)]
    simp

/-- Witness for C10: on the concrete input (bulk 10, three segments, rank
0 of 2, balanced) at step 1, the distribution sizes sum to the rank
count 10. -/
theorem setBlockDistributionInRank_partition_witness :
    ((Bench.setBlockDistributionInRank Bench.sampleInput none [] 1).map
        Prod.snd).sum
      = (Bench.GetRankCountOffset Bench.sampleInput 1).2 :=
  (setBlockDistributionInRank_partition Bench.sampleInput none [] 1
    (by decide) (by decide)).2.2.2

/-! Helper lemmas about the keyed collections of the core model. -/

namespace Core

theorem lookupKey_map {α β γ : Type} [DecidableEq α] (k : α) (f : β → γ) :
    ∀ l : List (α × β),
      lookupKey k (l.map fun q => (q.1, f q.2)) = (lookupKey k l).map f := by
  intro l
  induction l with
  | nil => rfl
  | cons q rest ih =>
    by_cases h : q.1 = k
    · simp [lookupKey, h]
    · simp [lookupKey, h, ih]

theorem lookupKey_updateKey_self {α β : Type} [DecidableEq α] (k : α)
    (f : β → β) :
    ∀ l : List (α × β),
      lookupKey k (updateKey k f l) = (lookupKey k l).map f := by
  intro l
  induction l with
  | nil => rfl
  | cons q rest ih =>
    by_cases h : q.1 = k
    · simp [lookupKey, updateKey, h]
    · simp [lookupKey, updateKey, h, ih]

theorem lookupKey_updateKey_other {α β : Type} [DecidableEq α] (k j : α)
    (f : β → β) (hne : j ≠ k) :
    ∀ l : List (α × β), lookupKey j (updateKey k f l) = lookupKey j l := by
  intro l
  induction l with
  | nil => rfl
  | cons q rest ih =>
    by_cases h : q.1 = k
    · have hkj : ¬ k = j := fun hc => hne hc.symm
      simp [lookupKey, updateKey, h, hkj]
    · by_cases hj : q.1 = j
      · simp [lookupKey, updateKey, h, hj, hne]
      · simp [lookupKey, updateKey, h, hj, ih]

theorem lookupKey_mem {α β : Type} [DecidableEq α] (k : α) :
    ∀ (l : List (α × β)) (v : β), lookupKey k l = some v → (k, v) ∈ l := by
  intro l
  induction l with
  | nil => intro v h; simp [lookupKey] at h
  | cons q rest ih =>
    intro v h
    by_cases hq : q.1 = k
    · simp only [lookupKey, if_pos hq, Option.some.injEq] at h
      subst h
      rw [← hq]
      exact List.mem_cons_self q rest
    · simp only [lookupKey, if_neg hq] at h
      exact List.mem_cons_of_mem q (ih v h)

theorem mem_updateKey_of_lookupKey {α β : Type} [DecidableEq α] (k : α)
    (f : β → β) :
    ∀ (l : List (α × β)) (v : β),
      lookupKey k l = some v → (k, f v) ∈ updateKey k f l := by
  intro l
  induction l with
  | nil => intro v h; simp [lookupKey] at h
  | cons q rest ih =>
    intro v h
    by_cases hq : q.1 = k
    · simp only [lookupKey, if_pos hq, Option.some.injEq] at h
      subst h
      simp only [updateKey, if_pos hq]
      rw [← hq]
      exact List.mem_cons_self _ _
    · simp only [lookupKey, if_neg hq] at h
      simp only [updateKey, if_neg hq]
      exact List.mem_cons_of_mem q (ih v h)

/-! Helper lemmas: clearing after a successful flush leaves no dirt. -/

theorem clearDirty_not_dirty (c : NodeCore) : c.clearDirty.dirty = false := rfl

theorem rc_clear_not_dirty (rc : RecordComponent) :
    rc.clearAfterFlush.dirtyRecursive = false := by
  unfold RecordComponent.clearAfterFlush
  split
  · rfl
  · rename_i h
    unfold RecordComponent.dirtyRecursive at h ⊢
    simp at h
    exact h

theorem mesh_clear_not_dirty (m : MeshLike) :
    m.clearAfterFlush.dirtyRecursive = false := by
  unfold MeshLike.clearAfterFlush
  split
  · unfold MeshLike.dirtyRecursive
    simp only [clearDirty_not_dirty, Bool.false_or, List.any_map,
      List.any_eq_false, Function.comp]
    intro q _
    simp [rc_clear_not_dirty q.2]
  · rename_i h
    simp at h
    exact h

theorem iter_clear_not_dirty (it : IterationState) :
    it.clearAfterFlush.dirtyRecursive = false := by
  unfold IterationState.clearAfterFlush
  split
  · unfold IterationState.dirtyRecursive
    simp only [clearDirty_not_dirty, Bool.false_or, List.any_map,
      List.any_eq_false, Function.comp]
    intro q _
    simp [mesh_clear_not_dirty q.2]
  · rename_i h
    simp at h
    exact h

theorem series_clear_not_dirty (s : SeriesState) :
    s.clearAfterFlush.dirtyRecursive = false := by
  unfold SeriesState.clearAfterFlush
  split
  · unfold SeriesState.dirtyRecursive
    simp only [clearDirty_not_dirty, Bool.false_or, List.any_map,
      List.any_eq_false, Function.comp]
    intro q _
    simp [iter_clear_not_dirty q.2]
  · rename_i h
    simp at h
    exact h

theorem flush_of_not_dirty (s : SeriesState) (h : s.dirtyRecursive = false) :
    s.flush = { state := s, tasks := [], error := none } := by
  unfold SeriesState.flush
  have ht : s.flushTasks = [] := by
    unfold SeriesState.flushTasks
    rw [h]
    rfl
  simp [ht]

theorem flush_of_empty_tasks (s : SeriesState) (h : s.flushTasks = []) :
    s.flush = { state := s, tasks := [], error := none } := by
  unfold SeriesState.flush
  simp [h]

/-! Helper lemmas about close states under flushing and updating. -/

theorem iter_clear_status (it : IterationState) :
    it.clearAfterFlush.closeStatus
      = if it.dirtyRecursive = true
            ∧ it.closeStatus = CloseStatus.ClosedInFrontend
        then CloseStatus.ClosedInBackend
        else it.closeStatus := by
  unfold IterationState.clearAfterFlush
  by_cases hd : it.dirtyRecursive = true
  · by_cases hs : it.closeStatus = CloseStatus.ClosedInFrontend
    · simp [hd, hs]
    · simp [hd, hs]
  · simp [hd]

theorem iter_dirty_false_of_series (s : SeriesState) (idx : Nat)
    (it : IterationState) (hs : s.dirtyRecursive = false)
    (hlk : lookupKey idx s.iterations = some it) :
    it.dirtyRecursive = false := by
  unfold SeriesState.dirtyRecursive at hs
  simp only [Bool.or_eq_false_iff, List.any_eq_false] at hs
  have hmem := lookupKey_mem idx s.iterations it hlk
  have := hs.2 (idx, it) hmem
  simp at this
  exact this

theorem statusOf_clear (s : SeriesState) (idx : Nat) :
    s.clearAfterFlush.statusOf idx
      = (lookupKey idx s.iterations).map fun it =>
          it.clearAfterFlush.closeStatus := by
  unfold SeriesState.clearAfterFlush
  by_cases hd : s.dirtyRecursive = true
  · rw [if_pos hd]
    simp only [SeriesState.statusOf, lookupKey_map]
    cases lookupKey idx s.iterations <;> rfl
  · rw [if_neg hd]
    simp only [SeriesState.statusOf]
    cases hlk : lookupKey idx s.iterations with
    | none => rfl
    | some it =>
      have hnd : it.dirtyRecursive = false :=
        iter_dirty_false_of_series s idx it (by simpa using hd) hlk
      simp only [Option.map_some']
      rw [iter_clear_status]
      simp [hnd]

theorem statusOf_flush (s : SeriesState) (idx : Nat) :
    s.flush.state.statusOf idx = s.statusOf idx ∨
    (s.statusOf idx = some CloseStatus.ClosedInFrontend
      ∧ s.flush.state.statusOf idx = some CloseStatus.ClosedInBackend
      ∧ s.backendHealthy = true ∧ s.flush.error = none) := by
  by_cases hts : s.flushTasks = []
  · rw [flush_of_empty_tasks s hts]
    exact Or.inl rfl
  · by_cases hb : s.backendHealthy = true
    · have hfl : s.flush
          = { state := s.clearAfterFlush, tasks := s.flushTasks,
              error := none } := by
        unfold SeriesState.flush
        simp [hts, hb]
      rw [hfl]
      simp only
      rw [statusOf_clear]
      cases hlk : lookupKey idx s.iterations with
      | none =>
        left
        simp only [SeriesState.statusOf, hlk]
        rfl
      | some it =>
        simp only [Option.map_some']
        rw [iter_clear_status]
        by_cases hc : it.dirtyRecursive = true
              ∧ it.closeStatus = CloseStatus.ClosedInFrontend
        · right
          refine ⟨?_, ?_, hb, trivial⟩
          · simp only [SeriesState.statusOf, hlk, Option.map_some', hc.2]
          · simp [hc.1, hc.2]
        · left
          rw [if_neg hc]
          simp only [SeriesState.statusOf, hlk, Option.map_some']
    · have hfl : s.flush
          = { state := s, tasks := s.flushTasks,
              error := some ErrorKind.BackendError } := by
        unfold SeriesState.flush
        simp [hts, hb]
      rw [hfl]
      exact Or.inl rfl

theorem statusOf_core_update (s : SeriesState) (c : NodeCore) (idx : Nat) :
    ({ s with core := c } : SeriesState).statusOf idx = s.statusOf idx := rfl

theorem statusOf_updateKey_preserve (s : SeriesState) (k idx : Nat)
    (f : IterationState → IterationState)
    (hf : ∀ it, (f it).closeStatus = it.closeStatus) :
    ({ s with iterations := updateKey k f s.iterations } :
        SeriesState).statusOf idx = s.statusOf idx := by
  simp only [SeriesState.statusOf]
  by_cases h : idx = k
  · subst h
    rw [lookupKey_updateKey_self]
    cases lookupKey idx s.iterations with
    | none => rfl
    | some it => simp [hf it]
  · rw [lookupKey_updateKey_other k idx f h]

theorem statusOf_markClosed_self (s : SeriesState) (idx : Nat) :
    (s.markClosedInFrontend idx).statusOf idx
      = (s.statusOf idx).map fun _ => CloseStatus.ClosedInFrontend := by
  simp only [SeriesState.markClosedInFrontend, SeriesState.statusOf]
  rw [lookupKey_updateKey_self]
  cases lookupKey idx s.iterations with
  | none => rfl
  | some it => rfl

theorem statusOf_markClosed_other (s : SeriesState) (idx j : Nat)
    (h : j ≠ idx) :
    (s.markClosedInFrontend idx).statusOf j = s.statusOf j := by
  simp only [SeriesState.markClosedInFrontend, SeriesState.statusOf]
  rw [lookupKey_updateKey_other idx j _ h]

theorem status_exists (s : SeriesState) (idx : Nat) (st : CloseStatus)
    (hst : s.statusOf idx = some st) :
    ∃ it, lookupKey idx s.iterations = some it ∧ it.closeStatus = st := by
  unfold SeriesState.statusOf at hst
  cases h : lookupKey idx s.iterations with
  | none => rw [h] at hst; simp at hst
  | some it =>
    rw [h] at hst
    simp only [Option.map_some', Option.some.injEq] at hst
    exact ⟨it, rfl, hst⟩

theorem mutation_blocked (s : SeriesState) (idx : Nat) (st : CloseStatus)
    (hst : s.statusOf idx = some st) (hnot : mutationAllowed st = false) :
    ∀ op, Op.mutatesIteration idx op = true →
      applyOp s op
        = { state := s, tasks := [], error := some ErrorKind.InvalidState } := by
  obtain ⟨it, hlk, hcs⟩ := status_exists s idx st hst
  have hgate : mutationAllowed it.closeStatus = false := by rw [hcs]; exact hnot
  intro op hop
  cases op with
  | setSeriesAttribute n v => simp [Op.mutatesIteration] at hop
  | setIterationAttribute j n v =>
    have hj : j = idx := by simpa [Op.mutatesIteration] using hop
    subst hj
    simp [applyOp, hlk, hgate]
  | setMeshAttribute j mesh n v =>
    have hj : j = idx := by simpa [Op.mutatesIteration] using hop
    subst hj
    simp [applyOp, hlk, hgate]
  | storeChunk j mesh comp c =>
    have hj : j = idx := by simpa [Op.mutatesIteration] using hop
    subst hj
    simp [applyOp, hlk, hgate]
  | close j b => simp [Op.mutatesIteration] at hop
  | flushSeries => simp [Op.mutatesIteration] at hop

end Core

/-! The deferred-write engine claims. -/

namespace Core

/-- C4: a flush invoked while no node is dirty emits zero tasks and
leaves the state unchanged; consequently flushing immediately after a
successful flush is a no-op. -/
theorem flush_noop_and_idempotent :
    (∀ s : SeriesState, s.dirtyRecursive = false →
      s.flush = { state := s, tasks := [], error := none })
    ∧ (∀ s : SeriesState, s.flush.error = none →
      s.flush.state.flush
        = { state := s.flush.state, tasks := [], error := none }) := by
  constructor
  · exact flush_of_not_dirty
  · intro s herr
    by_cases hts : s.flushTasks = []
    · rw [flush_of_empty_tasks s hts]
      exact flush_of_empty_tasks s hts
    · by_cases hb : s.backendHealthy = true
      · have hfl : s.flush
            = { state := s.clearAfterFlush, tasks := s.flushTasks,
                error := none } := by
          unfold SeriesState.flush
          simp [hts, hb]
        rw [hfl]
        exact flush_of_not_dirty s.clearAfterFlush (series_clear_not_dirty s)
      · have hfl : s.flush
            = { state := s, tasks := s.flushTasks,
                error := some ErrorKind.BackendError } := by
          unfold SeriesState.flush
          simp [hts, hb]
        rw [hfl] at herr
        simp at herr

/-- Witness for C4: flushing the freshly flushed sample series is a
no-op. -/
theorem flush_noop_and_idempotent_witness :
    sampleSeries.flush.state.flush
      = { state := sampleSeries.flush.state, tasks := [], error := none } :=
  flush_noop_and_idempotent.2 sampleSeries (by decide)

/-- C5: for any entity and any non-empty sequence of `setAttribute` calls
to the same name, reading the attribute before any flush returns the last
written value, and the entity's dirty flag is set. -/
theorem setAttribute_last_write_wins (c : NodeCore) (n : String)
    (vs : List AttrValue) (h : vs ≠ []) :
    (vs.foldl (fun acc v => acc.setAttribute n v) c).getAttribute n
        = some (vs.getLast h)
    ∧ (vs.foldl (fun acc v => acc.setAttribute n v) c).dirty = true := by
  induction vs generalizing c with
  | nil => exact absurd rfl h
  | cons v rest ih =>
    cases rest with
    | nil =>
      constructor
      · simp [NodeCore.setAttribute, NodeCore.getAttribute, lookupKey]
      · rfl
    | cons v' rest' =>
      have hne : v' :: rest' ≠ [] := by simp
      have hlast : (v :: v' :: rest').getLast h = (v' :: rest').getLast hne :=
        List.getLast_cons hne
      rw [hlast]
      exact ih (c.setAttribute n v) hne

/-- Witness for C5: writing 1 then 2 to "unitSI" on the sample node reads
back 2 and leaves the node dirty. -/
theorem setAttribute_last_write_wins_witness :
    (([AttrValue.vInt 1, AttrValue.vInt 2].foldl
        (fun acc v => acc.setAttribute "unitSI" v) sampleCore).getAttribute
          "unitSI"
        = some ([AttrValue.vInt 1, AttrValue.vInt 2].getLast (by simp)))
    ∧ (([AttrValue.vInt 1, AttrValue.vInt 2].foldl
        (fun acc v => acc.setAttribute "unitSI" v) sampleCore).dirty
        = true) :=
  setAttribute_last_write_wins sampleCore "unitSI"
    [AttrValue.vInt 1, AttrValue.vInt 2] (by simp)

/-- C6: a failed flush surfaces a backend error, leaves the in-memory
state (in particular every dirty flag) exactly as it was, and the
identical batch is emitted again once the cause is corrected, after which
the retry succeeds. -/
theorem flush_failure_preserves_state (s : SeriesState) (e : ErrorKind)
    (h : s.flush.error = some e) :
    s.flush.state = s
    ∧ e = ErrorKind.BackendError
    ∧ s.flush.tasks = s.flushTasks
    ∧ s.flushTasks ≠ []
    ∧ ({ s with backendHealthy := true } : SeriesState).flush.tasks
        = s.flush.tasks
    ∧ ({ s with backendHealthy := true } : SeriesState).flush.error = none := by
  by_cases hts : s.flushTasks = []
  · rw [flush_of_empty_tasks s hts] at h
    simp at h
  · by_cases hb : s.backendHealthy = true
    · have hfl : s.flush
          = { state := s.clearAfterFlush, tasks := s.flushTasks,
              error := none } := by
        unfold SeriesState.flush
        simp [hts, hb]
      rw [hfl] at h
      simp at h
    · have hfl : s.flush
          = { state := s, tasks := s.flushTasks,
              error := some ErrorKind.BackendError } := by
        unfold SeriesState.flush
        simp [hts, hb]
      have htsame : ({ s with backendHealthy := true } : SeriesState).flushTasks
          = s.flushTasks := rfl
      have hfl2 : ({ s with backendHealthy := true } : SeriesState).flush
          = { state := ({ s with backendHealthy := true } :
                SeriesState).clearAfterFlush,
              tasks := s.flushTasks, error := none } := by
        unfold SeriesState.flush
        simp [htsame, hts]
      rw [hfl] at h ⊢
      simp only [Option.some.injEq] at h
      refine ⟨rfl, h.symm, rfl, hts, ?_, ?_⟩
      · rw [hfl2]
      · rw [hfl2]

/-- Witness for C6: flushing the sample series against the failing
backend fails with `BackendError` and changes nothing. -/
theorem flush_failure_preserves_state_witness :
    sampleSeriesUnhealthy.flush.state = sampleSeriesUnhealthy :=
  (flush_failure_preserves_state sampleSeriesUnhealthy ErrorKind.BackendError
    (by decide)).1

theorem close_result_status (s : SeriesState) (idx : Nat)
    (it : IterationState) (hlk : lookupKey idx s.iterations = some it)
    (hopen : mutationAllowed it.closeStatus = true) (b : Bool) :
    (applyOp s (Op.close idx b)).state.statusOf idx
      = some CloseStatus.ClosedInFrontend := by
  have hs : s.statusOf idx = some it.closeStatus := by
    simp [SeriesState.statusOf, hlk]
  cases b with
  | true =>
    have happ : (applyOp s (Op.close idx true)).state
        = s.flush.state.markClosedInFrontend idx := by
      simp [applyOp, hlk, hopen]
    rw [happ, statusOf_markClosed_self]
    rcases statusOf_flush s idx with h | h
    · rw [h, hs]
      rfl
    · rw [h.2.1]
      rfl
  | false =>
    have happ : (applyOp s (Op.close idx false)).state
        = s.markClosedInFrontend idx := by
      simp [applyOp, hlk, hopen]
    rw [happ, statusOf_markClosed_self, hs]
    rfl

theorem statusOf_applyOp (s : SeriesState) (op : Op) (idx : Nat) :
    (applyOp s op).state.statusOf idx = s.statusOf idx
    ∨ (s.statusOf idx = some CloseStatus.ClosedInFrontend
       ∧ (applyOp s op).state.statusOf idx = some CloseStatus.ClosedInBackend
       ∧ op.triggersFlush = true ∧ s.backendHealthy = true)
    ∨ (s.statusOf idx ≠ some CloseStatus.ClosedInBackend
       ∧ (applyOp s op).state.statusOf idx
           = some CloseStatus.ClosedInFrontend) := by
  cases op with
  | setSeriesAttribute n v => exact Or.inl rfl
  | setIterationAttribute j n v =>
    left
    cases hlk : lookupKey j s.iterations with
    | none =>
      have hstate : (applyOp s (Op.setIterationAttribute j n v)).state = s := by
        simp [applyOp, hlk]
      rw [hstate]
    | some it =>
      by_cases hg : mutationAllowed it.closeStatus = true
      · simp only [applyOp, hlk]
        rw [if_pos hg]
        exact statusOf_updateKey_preserve s j idx _ (fun q => rfl)
      · have hstate : (applyOp s (Op.setIterationAttribute j n v)).state
            = s := by
          simp [applyOp, hlk, hg]
        rw [hstate]
  | setMeshAttribute j mesh n v =>
    left
    cases hlk : lookupKey j s.iterations with
    | none =>
      have hstate : (applyOp s (Op.setMeshAttribute j mesh n v)).state = s := by
        simp [applyOp, hlk]
      rw [hstate]
    | some it =>
      by_cases hg : mutationAllowed it.closeStatus = true
      · cases hmk : lookupKey mesh it.meshes with
        | none =>
          have hstate : (applyOp s (Op.setMeshAttribute j mesh n v)).state
              = s := by
            simp [applyOp, hlk, hg, hmk]
          rw [hstate]
        | some m =>
          simp only [applyOp, hlk]
          rw [if_pos hg]
          simp only [hmk]
          exact statusOf_updateKey_preserve s j idx _ (fun q => rfl)
      · have hstate : (applyOp s (Op.setMeshAttribute j mesh n v)).state
            = s := by
          simp [applyOp, hlk, hg]
        rw [hstate]
  | storeChunk j mesh comp c =>
    left
    cases hlk : lookupKey j s.iterations with
    | none =>
      have hstate : (applyOp s (Op.storeChunk j mesh comp c)).state = s := by
        simp [applyOp, hlk]
      rw [hstate]
    | some it =>
      by_cases hg : mutationAllowed it.closeStatus = true
      · cases hmk : lookupKey mesh it.meshes with
        | none =>
          have hstate : (applyOp s (Op.storeChunk j mesh comp c)).state
              = s := by
            simp [applyOp, hlk, hg, hmk]
          rw [hstate]
        | some m =>
          cases hck : lookupKey comp m.components with
          | none =>
            have hstate : (applyOp s (Op.storeChunk j mesh comp c)).state
                = s := by
              simp [applyOp, hlk, hg, hmk, hck]
            rw [hstate]
          | some rc =>
            by_cases hc : rc.isConstant = true
            · have hstate : (applyOp s (Op.storeChunk j mesh comp c)).state
                  = s := by
                simp [applyOp, hlk, hg, hmk, hck, hc]
              rw [hstate]
            · cases hds : rc.dataset with
              | none =>
                have hstate : (applyOp s (Op.storeChunk j mesh comp c)).state
                    = s := by
                  simp [applyOp, hlk, hg, hmk, hck, hc, hds]
                rw [hstate]
              | some ext =>
                simp only [applyOp, hlk]
                rw [if_pos hg]
                simp only [hmk, hck]
                rw [if_neg hc]
                simp only [hds]
                exact statusOf_updateKey_preserve s j idx _ (fun q => rfl)
      · have hstate : (applyOp s (Op.storeChunk j mesh comp c)).state
            = s := by
          simp [applyOp, hlk, hg]
        rw [hstate]
  | close j b =>
    cases hlk : lookupKey j s.iterations with
    | none =>
      left
      have hstate : (applyOp s (Op.close j b)).state = s := by
        simp [applyOp, hlk]
      rw [hstate]
    | some it =>
      by_cases hg : mutationAllowed it.closeStatus = true
      · by_cases hj : idx = j
        · subst hj
          right
          right
          constructor
          · intro hc
            obtain ⟨it2, hlk2, hcs2⟩ :=
              status_exists s idx CloseStatus.ClosedInBackend hc
            rw [hlk] at hlk2
            injection hlk2 with he
            rw [← he] at hcs2
            rw [hcs2] at hg
            exact absurd hg (by decide)
          · exact close_result_status s idx it hlk hg b
        · cases b with
          | false =>
            left
            have hstate : (applyOp s (Op.close j false)).state
                = s.markClosedInFrontend j := by
              simp [applyOp, hlk, hg]
            rw [hstate]
            exact statusOf_markClosed_other s j idx hj
          | true =>
            have hstate : (applyOp s (Op.close j true)).state
                = s.flush.state.markClosedInFrontend j := by
              simp [applyOp, hlk, hg]
            rw [hstate, statusOf_markClosed_other _ j idx hj]
            rcases statusOf_flush s idx with h1 | h2
            · exact Or.inl h1
            · exact Or.inr (Or.inl ⟨h2.1, h2.2.1, rfl, h2.2.2.1⟩)
      · left
        have hstate : (applyOp s (Op.close j b)).state = s := by
          simp [applyOp, hlk, hg]
        rw [hstate]
  | flushSeries =>
    rcases statusOf_flush s idx with h1 | h2
    · exact Or.inl h1
    · exact Or.inr (Or.inl ⟨h2.1, h2.2.1, rfl, h2.2.2.1⟩)

/-- C1: close() on an `Open` iteration moves it to `ClosedInFrontend`;
the state becomes `ClosedInBackend` only by a successful flush (a
`flush()` call or the flush forced by `close(flush=true)`) of an
iteration that was already `ClosedInFrontend`; no other path reaches
`ClosedInBackend`. -/
theorem close_state_machine :
    (∀ (s : SeriesState) (idx : Nat) (b : Bool) (it : IterationState),
      lookupKey idx s.iterations = some it →
      it.closeStatus = CloseStatus.Open →
      (applyOp s (Op.close idx b)).state.statusOf idx
        = some CloseStatus.ClosedInFrontend)
    ∧ (∀ (s : SeriesState) (op : Op) (idx : Nat),
      (applyOp s op).state.statusOf idx = some CloseStatus.ClosedInBackend →
      s.statusOf idx = some CloseStatus.ClosedInBackend ∨
      (s.statusOf idx = some CloseStatus.ClosedInFrontend
        ∧ op.triggersFlush = true ∧ s.backendHealthy = true)) := by
  constructor
  · intro s idx b it hlk hopen
    exact close_result_status s idx it hlk (by rw [hopen]; rfl) b
  · intro s op idx h
    rcases statusOf_applyOp s op idx with h1 | h2 | h3
    · left
      rw [← h1]
      exact h
    · exact Or.inr ⟨h2.1, h2.2.2.1, h2.2.2.2⟩
    · rw [h3.2] at h
      simp at h

/-- Witness for C1: closing the open iteration 1 of the sample series
leaves it `ClosedInFrontend`. -/
theorem close_state_machine_witness :
    (applyOp sampleSeries (Op.close 1 false)).state.statusOf 1
      = some CloseStatus.ClosedInFrontend :=
  close_state_machine.1 sampleSeries 1 false sampleIteration (by decide)
    (by decide)

/-- C2: once an iteration is `ClosedInBackend`, every data- or
attribute-mutating call on it or its meshes fails with `InvalidState`
leaving the state untouched, and no operation ever takes the iteration
out of `ClosedInBackend`. -/
theorem closedInBackend_is_final (s : SeriesState) (idx : Nat)
    (h : s.statusOf idx = some CloseStatus.ClosedInBackend) :
    (∀ op, Op.mutatesIteration idx op = true →
      applyOp s op
        = { state := s, tasks := [], error := some ErrorKind.InvalidState })
    ∧ (∀ op, (applyOp s op).state.statusOf idx
        = some CloseStatus.ClosedInBackend) := by
  refine ⟨mutation_blocked s idx CloseStatus.ClosedInBackend h rfl, ?_⟩
  intro op
  rcases statusOf_applyOp s op idx with h1 | h2 | h3
  · rw [h1]
    exact h
  · exact h2.2.1
  · exact absurd h h3.1

/-- Witness for C2: setting an attribute on the backend-closed iteration
1 of the sample series fails with `InvalidState`. -/
theorem closedInBackend_is_final_witness :
    applyOp sampleSeriesClosed
        (Op.setIterationAttribute 1 "time" (AttrValue.vInt 0))
      = { state := sampleSeriesClosed, tasks := [],
          error := some ErrorKind.InvalidState } :=
  (closedInBackend_is_final sampleSeriesClosed 1 (by decide)).1
    (Op.setIterationAttribute 1 "time" (AttrValue.vInt 0)) (by decide)

/-- C3: `close(flush=true)` performs a flush of the pre-close state
before transitioning while `close(flush=false)` executes no tasks and
leaves the close task to the next scheduled flush; in both cases any
further mutation of the iteration fails with `InvalidState` immediately
after close returns. -/
theorem close_flush_modes (s : SeriesState) (idx : Nat)
    (it : IterationState) (hlk : lookupKey idx s.iterations = some it)
    (hopen : mutationAllowed it.closeStatus = true) :
    (applyOp s (Op.close idx true)).state
        = s.flush.state.markClosedInFrontend idx
    ∧ (applyOp s (Op.close idx true)).tasks = s.flush.tasks
    ∧ (applyOp s (Op.close idx false)).state = s.markClosedInFrontend idx
    ∧ (applyOp s (Op.close idx false)).tasks = []
    ∧ (∀ (b : Bool) (op : Op), Op.mutatesIteration idx op = true →
        (applyOp (applyOp s (Op.close idx b)).state op).error
          = some ErrorKind.InvalidState)
    ∧ Task.closeEntity [PathSeg.index idx]
        ∈ (applyOp s (Op.close idx false)).state.flushTasks := by
  have h1 : (applyOp s (Op.close idx true)).state
      = s.flush.state.markClosedInFrontend idx := by
    simp [applyOp, hlk, hopen]
  have h2 : (applyOp s (Op.close idx true)).tasks = s.flush.tasks := by
    simp [applyOp, hlk, hopen]
  have h3 : (applyOp s (Op.close idx false)).state
      = s.markClosedInFrontend idx := by
    simp [applyOp, hlk, hopen]
  have h4 : (applyOp s (Op.close idx false)).tasks = [] := by
    simp [applyOp, hlk, hopen]
  refine ⟨h1, h2, h3, h4, ?_, ?_⟩
  · intro b op hop
    have hst : (applyOp s (Op.close idx b)).state.statusOf idx
        = some CloseStatus.ClosedInFrontend :=
      close_result_status s idx it hlk hopen b
    rw [mutation_blocked (applyOp s (Op.close idx b)).state idx
      CloseStatus.ClosedInFrontend hst rfl op hop]
  · rw [h3]
    have hmem : (idx, { it with
        closeStatus := CloseStatus.ClosedInFrontend
        core := { it.core with dirty := true } })
        ∈ (s.markClosedInFrontend idx).iterations :=
      mem_updateKey_of_lookupKey idx _ s.iterations it hlk
    have hdirtyIt : ({ it with
        closeStatus := CloseStatus.ClosedInFrontend
        core := { it.core with dirty := true } } :
          IterationState).dirtyRecursive = true := rfl
    have hdirtyS : (s.markClosedInFrontend idx).dirtyRecursive = true := by
      unfold SeriesState.dirtyRecursive
      have hany : (s.markClosedInFrontend idx).iterations.any
          (fun q => q.2.dirtyRecursive) = true :=
        List.any_eq_true.mpr ⟨_, hmem, hdirtyIt⟩
      rw [hany, Bool.or_true]
    unfold SeriesState.flushTasks
    rw [if_pos hdirtyS]
    apply List.mem_append.mpr
    right
    apply List.mem_flatten.mpr
    refine ⟨IterationState.flushTasks [PathSeg.index idx]
      { it with
        closeStatus := CloseStatus.ClosedInFrontend
        core := { it.core with dirty := true } }, ?_, ?_⟩
    · exact List.mem_map.mpr ⟨_, hmem, rfl⟩
    · unfold IterationState.flushTasks
      rw [if_pos hdirtyIt]
      apply List.mem_append.mpr
      right
      simp

/-- Witness for C3: closing iteration 1 of the sample series without
flushing executes no tasks. -/
theorem close_flush_modes_witness :
    (applyOp sampleSeries (Op.close 1 false)).tasks = [] :=
  (close_flush_modes sampleSeries 1 sampleIteration (by decide)
    (by decide)).2.2.2.1

theorem encoding_clear (s : SeriesState) :
    s.clearAfterFlush.encoding = s.encoding := by
  unfold SeriesState.clearAfterFlush
  split <;> rfl

theorem encoding_flush (s : SeriesState) :
    s.flush.state.encoding = s.encoding := by
  by_cases hts : s.flushTasks = []
  · rw [flush_of_empty_tasks s hts]
  · by_cases hb : s.backendHealthy = true
    · have hfl : s.flush
          = { state := s.clearAfterFlush, tasks := s.flushTasks,
              error := none } := by
        unfold SeriesState.flush
        simp [hts, hb]
      rw [hfl]
      exact encoding_clear s
    · have hfl : s.flush
          = { state := s, tasks := s.flushTasks,
              error := some ErrorKind.BackendError } := by
        unfold SeriesState.flush
        simp [hts, hb]
      rw [hfl]

theorem encoding_applyOp (s : SeriesState) (op : Op) :
    (applyOp s op).state.encoding = s.encoding := by
  cases op with
  | setSeriesAttribute n v => rfl
  | setIterationAttribute j n v =>
    cases hlk : lookupKey j s.iterations with
    | none => simp [applyOp, hlk]
    | some it =>
      by_cases hg : mutationAllowed it.closeStatus = true
      · simp [applyOp, hlk, hg]
      · simp [applyOp, hlk, hg]
  | setMeshAttribute j mesh n v =>
    cases hlk : lookupKey j s.iterations with
    | none => simp [applyOp, hlk]
    | some it =>
      by_cases hg : mutationAllowed it.closeStatus = true
      · cases hmk : lookupKey mesh it.meshes with
        | none => simp [applyOp, hlk, hg, hmk]
        | some m => simp [applyOp, hlk, hg, hmk]
      · simp [applyOp, hlk, hg]
  | storeChunk j mesh comp c =>
    cases hlk : lookupKey j s.iterations with
    | none => simp [applyOp, hlk]
    | some it =>
      by_cases hg : mutationAllowed it.closeStatus = true
      · cases hmk : lookupKey mesh it.meshes with
        | none => simp [applyOp, hlk, hg, hmk]
        | some m =>
          cases hck : lookupKey comp m.components with
          | none => simp [applyOp, hlk, hg, hmk, hck]
          | some rc =>
            by_cases hc : rc.isConstant = true
            · simp [applyOp, hlk, hg, hmk, hck, hc]
            · cases hds : rc.dataset with
              | none => simp [applyOp, hlk, hg, hmk, hck, hc, hds]
              | some ext => simp [applyOp, hlk, hg, hmk, hck, hc, hds]
      · simp [applyOp, hlk, hg]
  | close j b =>
    cases hlk : lookupKey j s.iterations with
    | none => simp [applyOp, hlk]
    | some it =>
      by_cases hg : mutationAllowed it.closeStatus = true
      · cases b with
        | false =>
          simp [applyOp, hlk, hg, SeriesState.markClosedInFrontend]
        | true =>
          simpa [applyOp, hlk, hg, SeriesState.markClosedInFrontend]
            using encoding_flush s
      · simp [applyOp, hlk, hg]
  | flushSeries => exact encoding_flush s

/-- C8: the path template fixes the layout at construction: a template
with a step-number placeholder yields file-based layout, each iteration
landing in its own physical file; one without yields group-based layout,
all iterations sharing one physical file; and no operation ever changes
the encoding for the life of the series. -/
theorem layout_fixed_by_template (tpl : List PathToken) (healthy : Bool) :
    (hasStepPlaceholder tpl = true →
      (mkSeries tpl healthy).encoding = IterationEncoding.fileBased
      ∧ ∀ i j : Nat, i ≠ j →
          (mkSeries tpl healthy).physicalFileOf i
            ≠ (mkSeries tpl healthy).physicalFileOf j)
    ∧ (hasStepPlaceholder tpl = false →
      (mkSeries tpl healthy).encoding = IterationEncoding.groupBased
      ∧ ∀ i j : Nat,
          (mkSeries tpl healthy).physicalFileOf i
            = (mkSeries tpl healthy).physicalFileOf j)
    ∧ (∀ (s : SeriesState) (op : Op),
        (applyOp s op).state.encoding = s.encoding) := by
  refine ⟨?_, ?_, encoding_applyOp⟩
  · intro hp
    have henc : (mkSeries tpl healthy).encoding
        = IterationEncoding.fileBased := by
      simp [mkSeries, hp]
    refine ⟨henc, ?_⟩
    intro i j hij
    simp [SeriesState.physicalFileOf, henc]
    exact hij
  · intro hp
    have henc : (mkSeries tpl healthy).encoding
        = IterationEncoding.groupBased := by
      simp [mkSeries, hp]
    refine ⟨henc, ?_⟩
    intro i j
    simp [SeriesState.physicalFileOf, henc]

/-- Witness for C8: the benchmark's file-based template (with its `%07T`
placeholder) selects file-based layout and distinct files for iterations
1 and 2. -/
theorem layout_fixed_by_template_witness :
    (mkSeries [PathToken.lit "8a_parallel_1Db_", PathToken.stepPlaceholder 7,
        PathToken.lit ".bp"] true).encoding = IterationEncoding.fileBased
    ∧ (mkSeries [PathToken.lit "8a_parallel_1Db_",
        PathToken.stepPlaceholder 7,
        PathToken.lit ".bp"] true).physicalFileOf 1
      ≠ (mkSeries [PathToken.lit "8a_parallel_1Db_",
        PathToken.stepPlaceholder 7,
        PathToken.lit ".bp"] true).physicalFileOf 2 := by
  have h := (layout_fixed_by_template
    [PathToken.lit "8a_parallel_1Db_", PathToken.stepPlaceholder 7,
      PathToken.lit ".bp"] true).1 (by decide)
  exact ⟨h.1, h.2 1 2 (by decide)⟩

/-! Helper lemmas for the create-before-use claim: what each flush block
may contain, and how the scan composes over concatenation. -/

theorem eq_of_mem_createTasks (p : HPath) (c : NodeCore) (t : Task)
    (h : t ∈ c.createTasks p) : t = Task.createEntity p := by
  unfold NodeCore.createTasks at h
  split at h
  · simp at h
  · simpa using h

theorem eq_of_mem_attrTasks (p : HPath) (c : NodeCore) (t : Task)
    (h : t ∈ c.attrTasks p) : ∃ n v, t = Task.writeAttribute p n v := by
  unfold NodeCore.attrTasks at h
  simp only [List.mem_filterMap] at h
  obtain ⟨n, -, hmap⟩ := h
  cases hv : lookupKey n c.attrs with
  | none => rw [hv] at hmap; simp at hmap
  | some v =>
    rw [hv] at hmap
    simp only [Option.map_some', Option.some.injEq] at hmap
    exact ⟨n, v, hmap.symm⟩

theorem target_createTasks (p : HPath) (c : NodeCore) (t : Task)
    (h : t ∈ c.createTasks p) : t.target = p := by
  rw [eq_of_mem_createTasks p c t h]
  rfl

theorem target_attrTasks (p : HPath) (c : NodeCore) (t : Task)
    (h : t ∈ c.attrTasks p) : t.target = p := by
  obtain ⟨n, v, ht⟩ := eq_of_mem_attrTasks p c t h
  rw [ht]
  rfl

theorem target_rc_flushTasks (p : HPath) (rc : RecordComponent) (t : Task)
    (h : t ∈ rc.flushTasks p) : t.target = p := by
  unfold RecordComponent.flushTasks at h
  split at h
  · simp only [List.mem_append] at h
    rcases h with ((h1 | h1) | h1) | h1
    · exact target_createTasks p rc.core t h1
    · exact target_attrTasks p rc.core t h1
    · split at h1
      · by_cases hdc : rc.datasetCreated = true
        · rw [if_pos hdc] at h1
          simp at h1
        · rw [if_neg hdc] at h1
          simp only [List.mem_singleton] at h1
          rw [h1]
          rfl
      · simp at h1
    · simp only [List.mem_map] at h1
      obtain ⟨ch, -, ht⟩ := h1
      rw [← ht]
      rfl
  · simp at h

theorem target_mesh_flushTasks (p : HPath) (m : MeshLike) (t : Task)
    (h : t ∈ m.flushTasks p) :
    t.target = p
    ∨ ∃ q, q ∈ m.components ∧ t.target = p ++ [PathSeg.name q.1] := by
  unfold MeshLike.flushTasks at h
  split at h
  · simp only [List.mem_append] at h
    rcases h with (h1 | h1) | h1
    · exact Or.inl (target_createTasks p m.core t h1)
    · exact Or.inl (target_attrTasks p m.core t h1)
    · simp only [List.mem_flatten, List.mem_map] at h1
      obtain ⟨l, ⟨q, hq, hl⟩, htl⟩ := h1
      rw [← hl] at htl
      exact Or.inr ⟨q, hq, target_rc_flushTasks _ q.2 t htl⟩
  · simp at h

theorem target_iter_flushTasks (p : HPath) (it : IterationState) (t : Task)
    (h : t ∈ it.flushTasks p) : ∃ rest, t.target = p ++ rest := by
  unfold IterationState.flushTasks at h
  split at h
  · simp only [List.mem_append] at h
    rcases h with ((h1 | h1) | h1) | h1
    · exact ⟨[], by rw [target_createTasks p it.core t h1, List.append_nil]⟩
    · exact ⟨[], by rw [target_attrTasks p it.core t h1, List.append_nil]⟩
    · simp only [List.mem_flatten, List.mem_map] at h1
      obtain ⟨l, ⟨q, hq, hl⟩, htl⟩ := h1
      rw [← hl] at htl
      rcases target_mesh_flushTasks _ q.2 t htl with h2 | ⟨r, -, h2⟩
      · exact ⟨[PathSeg.name q.1], by rw [h2]⟩
      · exact ⟨[PathSeg.name q.1, PathSeg.name r.1], by rw [h2]; simp⟩
    · rcases hcs : it.closeStatus with _ | _ | _ | _ <;> rw [hcs] at h1 <;>
        simp at h1 <;> rw [h1] <;> exact ⟨[], by simp [Task.target]⟩
  · simp at h

theorem scanOk_all_true (ic iu : Task → Bool) (p : HPath) :
    ∀ ts, scanOk ic iu p ts true = true := by
  intro ts
  induction ts with
  | nil => rfl
  | cons t ts ih =>
    unfold scanOk
    rw [if_neg]
    · simpa using ih
    · rintro ⟨-, -, hcr⟩
      simp at hcr

theorem scanOk_no_use_target (ic iu : Task → Bool) (p : HPath)
    (ts : List Task) (hts : ∀ t ∈ ts, ¬(t.target = p ∧ iu t = true)) :
    ∀ cr, scanOk ic iu p ts cr = true := by
  induction ts with
  | nil => intro cr; rfl
  | cons t ts ih =>
    intro cr
    unfold scanOk
    rw [if_neg]
    · exact ih (fun t2 ht2 => hts t2 (List.mem_cons_of_mem t ht2)) _
    · rintro ⟨h1, h2, -⟩
      exact hts t (List.mem_cons_self t ts) ⟨h1, h2⟩

theorem scanOk_no_target (ic iu : Task → Bool) (p : HPath)
    (ts : List Task) (hts : ∀ t ∈ ts, t.target ≠ p) :
    ∀ cr, scanOk ic iu p ts cr = true :=
  scanOk_no_use_target ic iu p ts
    (fun t ht hc => hts t ht hc.1)

theorem seenCreate_no_target (ic : Task → Bool) (p : HPath)
    (ts : List Task) (hts : ∀ t ∈ ts, t.target ≠ p) :
    seenCreate ic p ts = false := by
  unfold seenCreate
  rw [List.any_eq_false]
  intro t ht
  simp [hts t ht]

theorem scanOk_cons (ic iu : Task → Bool) (p : HPath) (t : Task)
    (ts : List Task) (cr : Bool) :
    scanOk ic iu p (t :: ts) cr
      = if t.target = p ∧ iu t = true
            ∧ (cr || (ic t && decide (t.target = p))) = false
        then false
        else scanOk ic iu p ts (cr || (ic t && decide (t.target = p))) := rfl

theorem scanOk_append (ic iu : Task → Bool) (p : HPath) :
    ∀ (a b : List Task) (cr : Bool),
      scanOk ic iu p (a ++ b) cr
        = (scanOk ic iu p a cr
            && scanOk ic iu p b (cr || seenCreate ic p a)) := by
  intro a
  induction a with
  | nil =>
    intro b cr
    simp [scanOk, seenCreate]
  | cons t a ih =>
    intro b cr
    simp only [List.cons_append]
    rw [scanOk_cons ic iu p t (a ++ b) cr, scanOk_cons ic iu p t a cr]
    by_cases hguard : t.target = p ∧ iu t = true
        ∧ (cr || (ic t && decide (t.target = p))) = false
    · rw [if_pos hguard, if_pos hguard]
      rfl
    · rw [if_neg hguard, if_neg hguard]
      rw [ih b (cr || (ic t && decide (t.target = p)))]
      have harg : ((cr || (ic t && decide (t.target = p)))
            || seenCreate ic p a)
          = (cr || seenCreate ic p (t :: a)) := by
        unfold seenCreate
        rw [List.any_cons]
        rw [Bool.or_assoc]
      rw [harg]

theorem scanOk_sandwich (ic iu : Task → Bool) (p : HPath)
    (ts pre mid post : List Task) (hts : ts = pre ++ (mid ++ post))
    (hpre : ∀ t ∈ pre, t.target ≠ p) (hpost : ∀ t ∈ post, t.target ≠ p)
    (hmid : scanOk ic iu p mid false = true) :
    scanOk ic iu p ts false = true := by
  subst hts
  rw [scanOk_append, scanOk_no_target ic iu p pre hpre false,
    seenCreate_no_target ic p pre hpre]
  simp only [Bool.true_and, Bool.or_false]
  rw [scanOk_append, hmid]
  simp only [Bool.true_and]
  exact scanOk_no_use_target ic iu p post
    (fun t ht hc => hpost t ht hc.1) _

theorem mem_split_nodup {α β : Type} [DecidableEq α] (l : List (α × β))
    (k : α) (v : β) (hmem : (k, v) ∈ l) (hnd : (l.map Prod.fst).Nodup) :
    ∃ l1 l2, l = l1 ++ (k, v) :: l2
      ∧ (∀ q ∈ l1, q.1 ≠ k) ∧ (∀ q ∈ l2, q.1 ≠ k) := by
  obtain ⟨l1, l2, rfl⟩ := List.append_of_mem hmem
  rw [List.map_append, List.map_cons] at hnd
  refine ⟨l1, l2, rfl, ?_, ?_⟩
  · intro q hq hqk
    have hdisj := List.disjoint_of_nodup_append hnd
    exact hdisj (List.mem_map_of_mem Prod.fst hq)
      (by rw [hqk]; exact List.mem_cons_self k _)
  · intro q hq hqk
    have h2 := (List.nodup_append.mp hnd).2.1
    have hk : k ∉ l2.map Prod.fst := (List.nodup_cons.mp h2).1
    exact hk (by rw [← hqk]; exact List.mem_map_of_mem Prod.fst hq)

theorem rc_block_create_before_use (p : HPath) (rc : RecordComponent)
    (hw : rc.core.written = false) :
    scanOk Task.isCreateEntity Task.isUse p (rc.flushTasks p) false
      = true := by
  unfold RecordComponent.flushTasks
  split
  · have hct : rc.core.createTasks p = [Task.createEntity p] := by
      unfold NodeCore.createTasks
      rw [hw]
      rfl
    rw [hct, List.append_assoc, List.append_assoc, List.singleton_append,
      scanOk_cons]
    rw [if_neg (by rintro ⟨-, h2, -⟩; simp [Task.isUse] at h2)]
    have hacc : (false || (Task.isCreateEntity (Task.createEntity p)
        && decide ((Task.createEntity p).target = p))) = true := by
      simp [Task.isCreateEntity, Task.target]
    rw [hacc]
    exact scanOk_all_true Task.isCreateEntity Task.isUse p _
  · rfl

theorem rc_block_dataset_before_chunk (p : HPath) (rc : RecordComponent)
    (hdc : rc.datasetCreated = false) (ext : List Nat)
    (hds : rc.dataset = some ext) :
    scanOk Task.isCreateDataset Task.isChunk p (rc.flushTasks p) false
      = true := by
  unfold RecordComponent.flushTasks
  split
  · simp only [hds]
    have hif : (if rc.datasetCreated = true then ([] : List Task)
        else [Task.createDataset p ext]) = [Task.createDataset p ext] := by
      rw [hdc]
      rfl
    rw [hif, scanOk_append]
    have hfirst : scanOk Task.isCreateDataset Task.isChunk p
        ((rc.core.createTasks p ++ rc.core.attrTasks p)
          ++ [Task.createDataset p ext]) false = true := by
      apply scanOk_no_use_target
      intro t ht
      rcases List.mem_append.mp ht with h1 | h1
      · rcases List.mem_append.mp h1 with h2 | h2
        · rw [eq_of_mem_createTasks p rc.core t h2]
          rintro ⟨-, hc⟩
          simp [Task.isChunk] at hc
        · obtain ⟨n, v, hv⟩ := eq_of_mem_attrTasks p rc.core t h2
          rw [hv]
          rintro ⟨-, hc⟩
          simp [Task.isChunk] at hc
      · simp only [List.mem_singleton] at h1
        rw [h1]
        rintro ⟨-, hc⟩
        simp [Task.isChunk] at hc
    have hseen : seenCreate Task.isCreateDataset p
        ((rc.core.createTasks p ++ rc.core.attrTasks p)
          ++ [Task.createDataset p ext]) = true := by
      unfold seenCreate
      rw [List.any_append]
      simp [Task.isCreateDataset, Task.target]
    rw [hfirst, hseen]
    simp only [Bool.true_and, Bool.or_true]
    exact scanOk_all_true Task.isCreateDataset Task.isChunk p _
  · rfl

theorem scanOk_mesh_block (ic iu : Task → Bool) (idx : Nat)
    (mesh comp : String) (m : MeshLike) (rc : RecordComponent)
    (hnd : (m.components.map Prod.fst).Nodup)
    (hrc : (comp, rc) ∈ m.components)
    (hblock : scanOk ic iu
        [PathSeg.index idx, PathSeg.name mesh, PathSeg.name comp]
        (rc.flushTasks
          [PathSeg.index idx, PathSeg.name mesh, PathSeg.name comp])
        false = true) :
    scanOk ic iu [PathSeg.index idx, PathSeg.name mesh, PathSeg.name comp]
      (m.flushTasks [PathSeg.index idx, PathSeg.name mesh]) false
      = true := by
  unfold MeshLike.flushTasks
  split
  · obtain ⟨c1, c2, hsplit, hc1, hc2⟩ :=
      mem_split_nodup m.components comp rc hrc hnd
    rw [hsplit]
    simp only [List.map_append, List.map_cons, List.flatten_append,
      List.flatten_cons]
    refine scanOk_sandwich ic iu
      [PathSeg.index idx, PathSeg.name mesh, PathSeg.name comp] _
      ((m.core.createTasks [PathSeg.index idx, PathSeg.name mesh]
          ++ m.core.attrTasks [PathSeg.index idx, PathSeg.name mesh])
        ++ (c1.map fun q => q.2.flushTasks
            ([PathSeg.index idx, PathSeg.name mesh]
              ++ [PathSeg.name q.1])).flatten)
      (rc.flushTasks ([PathSeg.index idx, PathSeg.name mesh]
        ++ [PathSeg.name comp]))
      ((c2.map fun q => q.2.flushTasks
          ([PathSeg.index idx, PathSeg.name mesh]
            ++ [PathSeg.name q.1])).flatten)
      (by simp [List.append_assoc]) ?_ ?_ hblock
    · intro t ht
      rcases List.mem_append.mp ht with h1 | h1
      · rcases List.mem_append.mp h1 with h2 | h2
        · rw [target_createTasks _ m.core t h2]
          simp
        · rw [target_attrTasks _ m.core t h2]
          simp
      · simp only [List.mem_flatten, List.mem_map] at h1
        obtain ⟨l, ⟨q, hq, hl⟩, htl⟩ := h1
        rw [← hl] at htl
        rw [target_rc_flushTasks _ q.2 t htl]
        intro hc
        simp at hc
        exact hc1 q hq hc
    · intro t ht
      simp only [List.mem_flatten, List.mem_map] at ht
      obtain ⟨l, ⟨q, hq, hl⟩, htl⟩ := ht
      rw [← hl] at htl
      rw [target_rc_flushTasks _ q.2 t htl]
      intro hc
      simp at hc
      exact hc2 q hq hc
  · rfl

theorem scanOk_iter_block (ic iu : Task → Bool) (idx : Nat)
    (mesh comp : String) (it : IterationState) (m : MeshLike)
    (hnd : (it.meshes.map Prod.fst).Nodup)
    (hm : (mesh, m) ∈ it.meshes)
    (hblock : scanOk ic iu
        [PathSeg.index idx, PathSeg.name mesh, PathSeg.name comp]
        (m.flushTasks [PathSeg.index idx, PathSeg.name mesh]) false
        = true) :
    scanOk ic iu [PathSeg.index idx, PathSeg.name mesh, PathSeg.name comp]
      (it.flushTasks [PathSeg.index idx]) false = true := by
  unfold IterationState.flushTasks
  split
  · obtain ⟨m1, m2, hsplit, hm1, hm2⟩ :=
      mem_split_nodup it.meshes mesh m hm hnd
    rw [hsplit]
    simp only [List.map_append, List.map_cons, List.flatten_append,
      List.flatten_cons]
    refine scanOk_sandwich ic iu
      [PathSeg.index idx, PathSeg.name mesh, PathSeg.name comp] _
      ((it.core.createTasks [PathSeg.index idx]
          ++ it.core.attrTasks [PathSeg.index idx])
        ++ (m1.map fun q => q.2.flushTasks
            ([PathSeg.index idx] ++ [PathSeg.name q.1])).flatten)
      (m.flushTasks ([PathSeg.index idx] ++ [PathSeg.name mesh]))
      ((m2.map fun q => q.2.flushTasks
          ([PathSeg.index idx] ++ [PathSeg.name q.1])).flatten
        ++ (match it.closeStatus with
            | CloseStatus.ClosedInFrontend =>
              [Task.closeEntity [PathSeg.index idx]]
            | CloseStatus.ClosedTemporarily =>
              [Task.advanceStep [PathSeg.index idx]]
            | _ => []))
      (by simp [List.append_assoc]) ?_ ?_ hblock
    · intro t ht
      rcases List.mem_append.mp ht with h1 | h1
      · rcases List.mem_append.mp h1 with h2 | h2
        · rw [target_createTasks _ it.core t h2]
          simp
        · rw [target_attrTasks _ it.core t h2]
          simp
      · simp only [List.mem_flatten, List.mem_map] at h1
        obtain ⟨l, ⟨q, hq, hl⟩, htl⟩ := h1
        rw [← hl] at htl
        rcases target_mesh_flushTasks _ q.2 t htl with h2 | ⟨r, -, h2⟩
        · rw [h2]
          simp
        · rw [h2]
          intro hc
          simp at hc
          exact hm1 q hq hc.1
    · intro t ht
      rcases List.mem_append.mp ht with h1 | h1
      · simp only [List.mem_flatten, List.mem_map] at h1
        obtain ⟨l, ⟨q, hq, hl⟩, htl⟩ := h1
        rw [← hl] at htl
        rcases target_mesh_flushTasks _ q.2 t htl with h2 | ⟨r, -, h2⟩
        · rw [h2]
          simp
        · rw [h2]
          intro hc
          simp at hc
          exact hm2 q hq hc.1
      · rcases hcs : it.closeStatus with _ | _ | _ | _ <;>
          rw [hcs] at h1 <;> simp at h1 <;> rw [h1] <;> simp [Task.target]
  · rfl

theorem scanOk_series_block (ic iu : Task → Bool) (s : SeriesState)
    (idx : Nat) (mesh comp : String) (it : IterationState)
    (hnd : (s.iterations.map Prod.fst).Nodup)
    (hit : (idx, it) ∈ s.iterations)
    (hblock : scanOk ic iu
        [PathSeg.index idx, PathSeg.name mesh, PathSeg.name comp]
        (it.flushTasks [PathSeg.index idx]) false = true) :
    scanOk ic iu [PathSeg.index idx, PathSeg.name mesh, PathSeg.name comp]
      s.flushTasks false = true := by
  unfold SeriesState.flushTasks
  split
  · obtain ⟨i1, i2, hsplit, hi1, hi2⟩ :=
      mem_split_nodup s.iterations idx it hit hnd
    rw [hsplit]
    simp only [List.map_append, List.map_cons, List.flatten_append,
      List.flatten_cons]
    refine scanOk_sandwich ic iu
      [PathSeg.index idx, PathSeg.name mesh, PathSeg.name comp] _
      ((s.core.createTasks [] ++ s.core.attrTasks [])
        ++ (i1.map fun q => q.2.flushTasks [PathSeg.index q.1]).flatten)
      (it.flushTasks [PathSeg.index idx])
      ((i2.map fun q => q.2.flushTasks [PathSeg.index q.1]).flatten)
      (by simp [List.append_assoc]) ?_ ?_ hblock
    · intro t ht
      rcases List.mem_append.mp ht with h1 | h1
      · rcases List.mem_append.mp h1 with h2 | h2
        · rw [target_createTasks _ s.core t h2]
          simp
        · rw [target_attrTasks _ s.core t h2]
          simp
      · simp only [List.mem_flatten, List.mem_map] at h1
        obtain ⟨l, ⟨q, hq, hl⟩, htl⟩ := h1
        rw [← hl] at htl
        obtain ⟨rest, h2⟩ := target_iter_flushTasks _ q.2 t htl
        rw [h2]
        intro hc
        simp at hc
        exact hi1 q hq hc.1
    · intro t ht
      simp only [List.mem_flatten, List.mem_map] at ht
      obtain ⟨l, ⟨q, hq, hl⟩, htl⟩ := ht
      rw [← hl] at htl
      obtain ⟨rest, h2⟩ := target_iter_flushTasks _ q.2 t htl
      rw [h2]
      intro hc
      simp at hc
      exact hi2 q hq hc.1
  · rfl

/-- C7: for a record component not yet created in the backend (with a
declared but uncreated dataset), the flush batch never contains a
write-attribute or write-chunk task for that node before its
create-entity task, and a create-dataset task precedes every pending
chunk task of that component. -/
theorem create_before_use (s : SeriesState) (idx : Nat)
    (mesh comp : String) (it : IterationState) (m : MeshLike)
    (rc : RecordComponent) (hwf : s.wellFormed)
    (hit : (idx, it) ∈ s.iterations) (hm : (mesh, m) ∈ it.meshes)
    (hrc : (comp, rc) ∈ m.components)
    (hw : rc.core.written = false) (hdc : rc.datasetCreated = false)
    (ext : List Nat) (hds : rc.dataset = some ext) :
    scanOk Task.isCreateEntity Task.isUse
        [PathSeg.index idx, PathSeg.name mesh, PathSeg.name comp]
        s.flushTasks false = true
    ∧ scanOk Task.isCreateDataset Task.isChunk
        [PathSeg.index idx, PathSeg.name mesh, PathSeg.name comp]
        s.flushTasks false = true := by
  have hnd_i : (s.iterations.map Prod.fst).Nodup := hwf.1
  have hnd_m : (it.meshes.map Prod.fst).Nodup := (hwf.2 (idx, it) hit).1
  have hnd_c : (m.components.map Prod.fst).Nodup :=
    (hwf.2 (idx, it) hit).2 (mesh, m) hm
  constructor
  · exact scanOk_series_block Task.isCreateEntity Task.isUse s idx mesh comp
      it hnd_i hit
      (scanOk_iter_block Task.isCreateEntity Task.isUse idx mesh comp it m
        hnd_m hm
        (scanOk_mesh_block Task.isCreateEntity Task.isUse idx mesh comp m
          rc hnd_c hrc
          (rc_block_create_before_use
            [PathSeg.index idx, PathSeg.name mesh, PathSeg.name comp]
            rc hw)))
  · exact scanOk_series_block Task.isCreateDataset Task.isChunk s idx mesh
      comp it hnd_i hit
      (scanOk_iter_block Task.isCreateDataset Task.isChunk idx mesh comp it
        m hnd_m hm
        (scanOk_mesh_block Task.isCreateDataset Task.isChunk idx mesh comp
          m rc hnd_c hrc
          (rc_block_dataset_before_chunk
            [PathSeg.index idx, PathSeg.name mesh, PathSeg.name comp]
            rc hdc ext hds)))

/-- Witness for C7: in the sample series (uncreated component "x" of
mesh "E" in iteration 1, dataset declared but uncreated), the flush batch
satisfies both scan properties. -/
theorem create_before_use_witness :
    scanOk Task.isCreateEntity Task.isUse
        [PathSeg.index 1, PathSeg.name "E", PathSeg.name "x"]
        sampleSeries.flushTasks false = true :=
  (create_before_use sampleSeries 1 "E" "x" sampleIteration sampleMesh
    sampleRC (by unfold SeriesState.wellFormed; decide) (by decide)
    (by decide) (by decide) (by decide) (by decide) [100] (by decide)).1

end Core

end OpenPMD
